import Mathlib

/-!
# Shallow embedding of the Shenandoah allocation pacer

This file embeds `ShenandoahPacer` (shenandoahPacer.cpp): the shared
budget/tax-rate state, the per-phase tax computations of
`setup_for_mark` / `setup_for_evac` / `setup_for_updaterefs` /
`setup_for_idle`, the budget installation of `restart_with`, the lock-free
claim protocol of `claim_for_alloc`, and the paced allocation loop of
`pace_for_alloc`, and proves the stated properties about them.

Modelling conventions:
* `size_t` values are `Nat`, the signed `intptr_t` budget is `Int`;
* the C++ `double` tax rate is modelled exactly as `ℚ`, and the
  `double -> integer` conversions are modelled as truncation toward zero
  (`qtrunc`); the `1.1` surcharge is the exact rational `11/10`;
* the CAS retry loops are modelled sequentially, except where a claim is
  about interference, where the loop is modelled against an explicit
  interference trace (`cmpxchg_store_loop`, `pace_loop`);
* the unbounded `while (true)` retry loop of `pace_for_alloc` is modelled
  with explicit fuel; the termination theorem shows that
  `ShenandoahPacingMaxDelay + 1` units of fuel always suffice.
-/

/-- Truncation toward zero of an exact rational value, modelling the C++
conversion of a `double` to a signed integer type. -/
def qtrunc (q : ℚ) : Int := if 0 ≤ q then ⌊q⌋ else ⌈q⌉

/-- The shared pacer state: the `_budget` slot (`intptr_t`, in heap words)
and the `_tax_rate` slot (`double`). -/
structure PacerState where
  budget : Int
  tax_rate : ℚ
deriving DecidableEq

/-- `size_t non_taxable = free * ShenandoahPacingCycleSlack / 100;`
(`size_t` integer division). -/
def non_taxable (free slack : Nat) : Nat := free * slack / 100

/-- `size_t taxable = free - non_taxable;`. -/
def taxable (free slack : Nat) : Nat := free - non_taxable free slack

/-- Tax rate computed by `ShenandoahPacer::setup_for_mark`:
`tax = 1.0 * used / taxable; tax *= 3; tax = MAX2(1, tax); tax *= 1.1;`. -/
def mark_tax (used free slack : Nat) : ℚ :=
  let tax : ℚ := (used : ℚ) / (taxable free slack : ℚ)
  let tax := tax * 3
  let tax := max 1 tax
  tax * (11 / 10)

/-- Tax rate computed by `ShenandoahPacer::setup_for_evac`:
`tax = 1.0 * cset / taxable; tax *= 2; tax = MAX2(1, tax); tax *= 1.1;`. -/
def evac_tax (cset free slack : Nat) : ℚ :=
  let tax : ℚ := (cset : ℚ) / (taxable free slack : ℚ)
  let tax := tax * 2
  let tax := max 1 tax
  tax * (11 / 10)

/-- Tax rate computed by `ShenandoahPacer::setup_for_updaterefs`:
`tax = 1.0 * used / taxable; tax *= 1; tax = MAX2(1, tax); tax *= 1.1;`. -/
def updaterefs_tax (used free slack : Nat) : ℚ :=
  let tax : ℚ := (used : ℚ) / (taxable free slack : ℚ)
  let tax := tax * 1
  let tax := max 1 tax
  tax * (11 / 10)

/-- Budget installed by `ShenandoahPacer::restart_with`:
`intptr_t initial = (size_t)(non_taxable_bytes * tax_rate) >> LogHeapWordSize;`.
The `double` product is truncated to an unsigned byte count and then
right-shifted by the log of the heap word size (`lhws`). -/
def installed_budget (non_taxable_bytes : Nat) (tax_rate : ℚ) (lhws : Nat) : Int :=
  (((qtrunc ((non_taxable_bytes : ℚ) * tax_rate)).toNat >>> lhws : Nat) : Int)

/-- `ShenandoahPacer::restart_with`: installs `initial` as the budget and
`tax_rate` as the tax rate. The CAS loop writes a value that does not depend
on the prior state, so the resulting state is a function of the arguments
only (the loop itself is modelled by `restart_with_loop`). -/
def restart_with (non_taxable_bytes : Nat) (tax_rate : ℚ) (lhws : Nat) : PacerState :=
  { budget := installed_budget non_taxable_bytes tax_rate lhws, tax_rate := tax_rate }

/-- The CAS retry loop inside `restart_with`:
`do { cur = load(_budget); } while (cmpxchg(initial, _budget, cur) != cur);`.
Each entry `v` of the interference trace means a concurrent writer changed
the budget to `v` between the read and the `cmpxchg`, failing that round;
when the trace is exhausted the `cmpxchg` succeeds and installs `initial`. -/
def cmpxchg_store_loop (initial : Int) : Int → List Int → Int
  | _, [] => initial
  | _, v :: rest => cmpxchg_store_loop initial v rest

/-- `ShenandoahPacer::restart_with` with its CAS retry loop run against an
explicit interference trace, starting from an arbitrary prior state. -/
def restart_with_loop (non_taxable_bytes : Nat) (tax_rate : ℚ) (lhws : Nat)
    (st : PacerState) (interference : List Int) : PacerState :=
  { budget := cmpxchg_store_loop (installed_budget non_taxable_bytes tax_rate lhws)
      st.budget interference,
    tax_rate := tax_rate }

/-- `ShenandoahPacer::setup_for_mark` (heap inputs `used` and `free` and the
`ShenandoahPacingCycleSlack` percentage given as arguments). -/
def setup_for_mark (used free slack lhws : Nat) : PacerState :=
  restart_with (non_taxable free slack) (mark_tax used free slack) lhws

/-- `ShenandoahPacer::setup_for_evac` (collection-set live data `cset`). -/
def setup_for_evac (cset free slack lhws : Nat) : PacerState :=
  restart_with (non_taxable free slack) (evac_tax cset free slack) lhws

/-- `ShenandoahPacer::setup_for_updaterefs`. -/
def setup_for_updaterefs (used free slack lhws : Nat) : PacerState :=
  restart_with (non_taxable free slack) (updaterefs_tax used free slack) lhws

/-- `ShenandoahPacer::setup_for_idle`:
`size_t initial = _heap->capacity() * ShenandoahPacingIdleSlack / 100;`
with `double tax = 1;`. -/
def setup_for_idle (capacity idle_slack lhws : Nat) : PacerState :=
  restart_with (capacity * idle_slack / 100) 1 lhws

/-- The cost charged by `ShenandoahPacer::claim_for_alloc`:
`intptr_t tax = MAX2<intptr_t>(1, words * load_acquire(_tax_rate));`. -/
def alloc_tax (words : Nat) (rate : ℚ) : Int :=
  max 1 (qtrunc ((words : ℚ) * rate))

/-- `ShenandoahPacer::claim_for_alloc`: reads the budget; if it is below the
tax, fails without mutation, otherwise installs `cur - tax`. The `force`
argument appears in the C++ signature but is never read by the body, and is
kept unread here as well. -/
def claim_for_alloc (words : Nat) (force : Bool) (st : PacerState) : Bool × PacerState :=
  let tax := alloc_tax words st.tax_rate
  if st.budget < tax then (false, st)
  else (true, { st with budget := st.budget - tax })

/-- The `while (true)` retry loop of `ShenandoahPacer::pace_for_alloc`,
modelled with fuel. Iteration `n` sleeps one quantum (during which the
environment `env` may mutate the shared state, e.g. a concurrent
`restart_with`), observes `ms = time n` elapsed milliseconds, and then
either breaks out forcefully (`max_wait < ms`, recording `ms` and invoking
the forced claim), or retries the ordinary claim, recording `ms` on
success. Returns `(iteration, recorded ms, forced?, final state)`. -/
def pace_loop (words max_wait : Nat) (time : Nat → Nat)
    (env : Nat → PacerState → PacerState) :
    Nat → Nat → PacerState → Option (Nat × Nat × Bool × PacerState)
  | 0, _, _ => none
  | fuel + 1, n, st =>
    let st1 := env n st
    let ms := time n
    if max_wait < ms then
      some (n, ms, true, (claim_for_alloc words true st1).2)
    else
      match claim_for_alloc words false st1 with
      | (true, st2) => some (n, ms, false, st2)
      | (false, st2) => pace_loop words max_wait time env fuel (n + 1) st2

/-- `ShenandoahPacer::pace_for_alloc`: the fast path tries
`claim_for_alloc(words, false)` and returns at once on success, touching
nothing else; otherwise the retry loop runs. The returned list holds the
values passed to `_delays.add`, in order, alongside the final state. -/
def pace_for_alloc (words max_wait : Nat) (time : Nat → Nat)
    (env : Nat → PacerState → PacerState) (fuel : Nat) (st : PacerState) :
    Option (List Nat × PacerState) :=
  match claim_for_alloc words false st with
  | (true, st1) => some ([], st1)
  | (false, _) =>
    match pace_loop words max_wait time env fuel 0 st with
    | none => none
    | some (_, ms, _, st2) => some ([ms], st2)

/-! ## Helper lemmas -/

/-- The CAS store loop installs `initial` regardless of the value read and
regardless of the interference suffered. -/
theorem cmpxchg_store_loop_eq (initial : Int) :
    ∀ (cur : Int) (interference : List Int),
      cmpxchg_store_loop initial cur interference = initial := by
  intro cur interference
  induction interference generalizing cur with
  | nil => rfl
  | cons v rest ih => exact ih v

/-- Multiplying the `MAX2(1, t)` floor by the `1.1` surcharge keeps the
result at or above `11/10`. -/
theorem le_surcharge (t : ℚ) : 11 / 10 ≤ max 1 t * (11 / 10) := by
  have h : (1 : ℚ) ≤ max 1 t := le_max_left 1 t
  linarith

/-! ## Claim theorems -/

/-- C1: `claim_for_alloc` with `force = false` fails and leaves the budget
unchanged exactly when the observed budget is below the cost, and otherwise
succeeds having decremented the budget by exactly the cost. -/
theorem claim_tryDecrement_spec (words : Nat) (st : PacerState) :
    (st.budget < alloc_tax words st.tax_rate →
      claim_for_alloc words false st = (false, st)) ∧
    (alloc_tax words st.tax_rate ≤ st.budget →
      claim_for_alloc words false st =
        (true, ⟨st.budget - alloc_tax words st.tax_rate, st.tax_rate⟩)) := by
  constructor
  · intro h
    simp [claim_for_alloc, h]
  · intro h
    simp [claim_for_alloc, not_lt.mpr h]

/-- C1 witness: a claim of 1000 units against budget 500 at tax rate 1 fails
without mutation; after a `restart_with` installing budget 2000 (16000
non-taxable bytes at tax rate 1, 8-byte heap words) the same claim succeeds,
leaving budget 1000. -/
theorem claim_tryDecrement_spec_witness :
    claim_for_alloc 1000 false ⟨500, 1⟩ = (false, ⟨500, 1⟩) ∧
    restart_with 16000 1 3 = (⟨2000, 1⟩ : PacerState) ∧
    claim_for_alloc 1000 false (restart_with 16000 1 3) = (true, ⟨1000, 1⟩) := by
  refine ⟨(claim_tryDecrement_spec 1000 ⟨500, 1⟩).1 (by norm_num [alloc_tax, qtrunc]),
    ?_, ?_⟩
  · norm_num [restart_with, installed_budget, qtrunc, Nat.shiftRight_eq_div_pow]
  · have h := (claim_tryDecrement_spec 1000 (restart_with 16000 1 3)).2
      (by norm_num [restart_with, installed_budget, alloc_tax, qtrunc,
            Nat.shiftRight_eq_div_pow])
    rw [h]
    norm_num [restart_with, installed_budget, alloc_tax, qtrunc,
      Nat.shiftRight_eq_div_pow]

/-- C2: evaluating the code at the failing input. A forced claim
(`force = true`) of 1000 units against budget 500 at tax rate 1 returns
`false` and leaves the budget at 500: `claim_for_alloc` never reads `force`,
so the forced claim does not install `500 - 1000 = -500`, contradicting both
the claim and the comment in `pace_for_alloc` that the forced claim may
drive the budget negative. -/
theorem claim_force_flag_dead_at_failing_input :
    claim_for_alloc 1000 true ⟨500, 1⟩ = (false, ⟨500, 1⟩) := by
  norm_num [claim_for_alloc, alloc_tax, qtrunc]

/-- C3: the `force` argument of `claim_for_alloc` has no effect: both the
returned boolean and the resulting state coincide for any two values of the
flag, on every input. -/
theorem claim_force_flag_no_effect (words : Nat) (f g : Bool) (st : PacerState) :
    claim_for_alloc words f st = claim_for_alloc words g st := rfl

/-- C8: `restart_with` is equivalent to a plain store: run against any prior
state and any interference trace of in-flight concurrent writes, the CAS
loop installs a budget that depends only on the arguments, and the resulting
state reads back exactly the installed pair. -/
theorem restart_with_plain_store (non_taxable_bytes : Nat) (tax_rate : ℚ)
    (lhws : Nat) (st : PacerState) (interference : List Int) :
    restart_with_loop non_taxable_bytes tax_rate lhws st interference =
      restart_with non_taxable_bytes tax_rate lhws := by
  unfold restart_with_loop restart_with
  rw [cmpxchg_store_loop_eq]

/-- C9: the cost charged by `claim_for_alloc` is at least one allocation
unit, so whenever the budget is zero or negative every non-forced claim
fails and leaves the state unchanged. -/
theorem alloc_tax_floor_and_depleted_fails (words : Nat) (st : PacerState) :
    1 ≤ alloc_tax words st.tax_rate ∧
    (st.budget ≤ 0 → claim_for_alloc words false st = (false, st)) := by
  refine ⟨le_max_left _ _, fun h => ?_⟩
  have h2 : st.budget < alloc_tax words st.tax_rate :=
    lt_of_le_of_lt h (lt_of_lt_of_le Int.zero_lt_one (le_max_left _ _))
  simp [claim_for_alloc, h2]

/-- C9 witness: at `words = 0` (where `words * tax_rate` truncates to 0) the
cost is still 1, and with budget 0 the claim fails without mutation. -/
theorem alloc_tax_floor_and_depleted_fails_witness :
    1 ≤ alloc_tax 0 (⟨0, 1⟩ : PacerState).tax_rate ∧
    claim_for_alloc 0 false ⟨0, 1⟩ = (false, ⟨0, 1⟩) :=
  ⟨(alloc_tax_floor_and_depleted_fails 0 ⟨0, 1⟩).1,
   (alloc_tax_floor_and_depleted_fails 0 ⟨0, 1⟩).2 (by norm_num)⟩

/-- C5: with a positive taxable region, the tax rate computed for the mark,
evacuation and update-refs phases is at least `11/10` (the `MAX2(1, tax)`
floor times the `1.1` surcharge), and the idle setup installs a tax rate of
exactly 1. -/
theorem phase_tax_floor :
    (∀ used cset free slack : Nat, 0 < taxable free slack →
      11 / 10 ≤ mark_tax used free slack ∧
      11 / 10 ≤ evac_tax cset free slack ∧
      11 / 10 ≤ updaterefs_tax used free slack) ∧
    (∀ capacity idle_slack lhws : Nat,
      (setup_for_idle capacity idle_slack lhws).tax_rate = 1) := by
  refine ⟨fun used cset free slack _ => ⟨?_, ?_, ?_⟩, fun _ _ _ => rfl⟩
  · exact le_surcharge _
  · exact le_surcharge _
  · exact le_surcharge _

/-- C5 witness: at `used = cset = 0`, `free = 100`, `slack = 10` the taxable
region is 90 and all three phase taxes hit the floor `11/10`; any idle setup
has tax rate 1. -/
theorem phase_tax_floor_witness :
    (11 / 10 ≤ mark_tax 0 100 10 ∧
     11 / 10 ≤ evac_tax 0 100 10 ∧
     11 / 10 ≤ updaterefs_tax 0 100 10) ∧
    (setup_for_idle 1000 1 3).tax_rate = 1 :=
  ⟨phase_tax_floor.1 0 0 100 10 (by norm_num [taxable, non_taxable]),
   phase_tax_floor.2 1000 1 3⟩

/-- C6: `setup_for_mark` computes `non_taxable = free * slack / 100`,
`taxable = free - non_taxable` and `tax = max(1, 3 * used / taxable) * 1.1`;
for `used = 90MB`, `free = 10MB`, `slack = 10` this gives
`non_taxable = 1MB`, `taxable = 9MB` and `tax = 33` exactly. -/
theorem setup_for_mark_formula :
    (∀ used free slack : Nat,
      mark_tax used free slack =
        max 1 (3 * (used : ℚ) / (taxable free slack : ℚ)) * (11 / 10)) ∧
    non_taxable (10 * 1048576) 10 = 1048576 ∧
    taxable (10 * 1048576) 10 = 9 * 1048576 ∧
    mark_tax (90 * 1048576) (10 * 1048576) 10 = 33 := by
  refine ⟨fun used free slack => ?_, by norm_num [non_taxable],
    by norm_num [taxable, non_taxable], ?_⟩
  · show max 1 ((used : ℚ) / (taxable free slack : ℚ) * 3) * (11 / 10) =
      max 1 (3 * (used : ℚ) / (taxable free slack : ℚ)) * (11 / 10)
    rw [div_mul_eq_mul_div, mul_comm (used : ℚ) 3]
  · have ht : taxable (10 * 1048576) 10 = 9 * 1048576 := by
      norm_num [taxable, non_taxable]
    show max 1 (((90 * 1048576 : Nat) : ℚ) / ((taxable (10 * 1048576) 10 : Nat) : ℚ) * 3)
        * (11 / 10) = 33
    rw [ht]
    rw [show ((90 * 1048576 : Nat) : ℚ) / ((9 * 1048576 : Nat) : ℚ) * 3 = 30 by
      push_cast; norm_num]
    norm_num

/-- C7: every phase setup installs as budget the non-taxable allowance
pre-multiplied by the tax rate, truncated to an integer byte count and
right-shifted by the log of the heap word size, together with that tax rate;
idle setup at capacity 1000MB and idle slack 1% with 8-byte heap words
installs the allocation-unit equivalent of 10MB at tax rate 1. -/
theorem setups_install_pretaxed_budget :
    (∀ used free slack lhws : Nat,
      setup_for_mark used free slack lhws =
        ⟨installed_budget (non_taxable free slack) (mark_tax used free slack) lhws,
         mark_tax used free slack⟩) ∧
    (∀ cset free slack lhws : Nat,
      setup_for_evac cset free slack lhws =
        ⟨installed_budget (non_taxable free slack) (evac_tax cset free slack) lhws,
         evac_tax cset free slack⟩) ∧
    (∀ used free slack lhws : Nat,
      setup_for_updaterefs used free slack lhws =
        ⟨installed_budget (non_taxable free slack)
            (updaterefs_tax used free slack) lhws,
         updaterefs_tax used free slack⟩) ∧
    (∀ capacity idle_slack lhws : Nat,
      setup_for_idle capacity idle_slack lhws =
        ⟨installed_budget (capacity * idle_slack / 100) 1 lhws, 1⟩) ∧
    setup_for_idle (1000 * 1048576) 1 3 = (⟨1310720, 1⟩ : PacerState) ∧
    (1310720 : Int) * 2 ^ 3 = 10 * 1048576 := by
  refine ⟨fun _ _ _ _ => rfl, fun _ _ _ _ => rfl, fun _ _ _ _ => rfl,
    fun _ _ _ => rfl, ?_, by norm_num⟩
  norm_num [setup_for_idle, restart_with, installed_budget, qtrunc,
    Nat.shiftRight_eq_div_pow]

/-- Under the one-millisecond sleep quantum (after sleep `k` at least `k + 1`
milliseconds have elapsed), the retry loop always produces a result once it
is given `max_wait` spare iterations: by iteration `max_wait` at the latest
the elapsed time exceeds the maximum delay and the loop breaks out
forcefully, if it has not already succeeded. -/
theorem pace_loop_isSome (words max_wait : Nat) (time : Nat → Nat)
    (env : Nat → PacerState → PacerState) (h : ∀ k, k < time k) :
    ∀ (fuel n : Nat) (st : PacerState), max_wait ≤ n + fuel →
      (pace_loop words max_wait time env (fuel + 1) n st).isSome := by
  intro fuel
  induction fuel with
  | zero =>
    intro n st hn
    have ht : max_wait < time n := lt_of_le_of_lt (by omega) (h n)
    simp [pace_loop, ht]
  | succ fuel ih =>
    intro n st hn
    by_cases ht : max_wait < time n
    · simp [pace_loop, ht]
    · rcases hc : claim_for_alloc words false (env n st) with ⟨ok, st2⟩
      cases ok
      · have h2 := ih (n + 1) st2 (by omega)
        simpa [pace_loop, ht, hc] using h2
      · simp [pace_loop, ht, hc]

/-- The milliseconds recorded by the retry loop are the elapsed time
observed at the exit iteration. -/
theorem pace_loop_ms (words max_wait : Nat) (time : Nat → Nat)
    (env : Nat → PacerState → PacerState) :
    ∀ (fuel n : Nat) (st : PacerState) (m ms : Nat) (f : Bool) (st' : PacerState),
      pace_loop words max_wait time env fuel n st = some (m, ms, f, st') →
      ms = time m := by
  intro fuel
  induction fuel with
  | zero => intro n st m ms f st' hp; simp [pace_loop] at hp
  | succ fuel ih =>
    intro n st m ms f st' hp
    simp only [pace_loop] at hp
    split at hp
    · simp only [Option.some.injEq, Prod.mk.injEq] at hp
      obtain ⟨rfl, rfl, -, -⟩ := hp
      rfl
    · split at hp
      · simp only [Option.some.injEq, Prod.mk.injEq] at hp
        obtain ⟨rfl, rfl, -, -⟩ := hp
        rfl
      · exact ih (n + 1) _ m ms f st' hp

/-- C4: every call to `pace_for_alloc` terminates with a bounded wait:
whenever each sleep quantum advances the observed elapsed time by at least
one millisecond, a fuel of `max_wait + 1` loop iterations suffices for the
call to return, for every allocation size, every initial state and every
adversarial interference from concurrent claimants and replenishments. -/
theorem pace_for_alloc_bounded (words max_wait : Nat) (time : Nat → Nat)
    (env : Nat → PacerState → PacerState) (st : PacerState)
    (h : ∀ k, k < time k) :
    ∃ r, pace_for_alloc words max_wait time env (max_wait + 1) st = some r := by
  unfold pace_for_alloc
  rcases hc : claim_for_alloc words false st with ⟨ok, st1⟩
  cases ok
  · have h2 := pace_loop_isSome words max_wait time env h max_wait 0 st (by omega)
    rcases hp : pace_loop words max_wait time env (max_wait + 1) 0 st with - | ⟨n, ms, f, st2⟩
    · rw [hp] at h2; simp at h2
    · simp [hp]
  · simp

/-- C4 witness: with a 1 ms quantum clock, no interference, one word of
allocation, a zero maximum delay and an empty budget, the call returns
with fuel `0 + 1`. -/
theorem pace_for_alloc_bounded_witness :
    ∃ r, pace_for_alloc 1 0 (fun k => k + 1) (fun _ s => s) (0 + 1) ⟨0, 1⟩ = some r :=
  pace_for_alloc_bounded 1 0 (fun k => k + 1) (fun _ s => s) ⟨0, 1⟩
    (fun k => Nat.lt_succ_self k)

/-- C10: `pace_for_alloc` touches the delay histogram only on the slow path:
if the initial claim succeeds no entry is recorded, and otherwise the call
records exactly one entry, whose value is the elapsed wait observed at the
loop's exit iteration. -/
theorem pace_for_alloc_histogram_frame (words max_wait : Nat) (time : Nat → Nat)
    (env : Nat → PacerState → PacerState) (fuel : Nat) (st : PacerState)
    (ds : List Nat) (st' : PacerState)
    (h : pace_for_alloc words max_wait time env fuel st = some (ds, st')) :
    ((claim_for_alloc words false st).1 = true → ds = []) ∧
    ((claim_for_alloc words false st).1 = false →
      ∃ n f stf, pace_loop words max_wait time env fuel 0 st = some (n, time n, f, stf) ∧
        ds = [time n]) := by
  unfold pace_for_alloc at h
  rcases hc : claim_for_alloc words false st with ⟨ok, st1⟩
  rw [hc] at h
  cases ok
  · refine ⟨fun hT => by simp at hT, fun _ => ?_⟩
    rcases hp : pace_loop words max_wait time env fuel 0 st with - | ⟨n, ms, f, st2⟩
    · rw [hp] at h; simp at h
    · rw [hp] at h
      simp only [Option.some.injEq, Prod.mk.injEq] at h
      obtain ⟨rfl, rfl⟩ := h
      have hms := pace_loop_ms words max_wait time env fuel 0 st n ms f st2 hp
      subst hms
      exact ⟨n, f, st2, rfl, rfl⟩
  · simp only [Option.some.injEq, Prod.mk.injEq] at h
    obtain ⟨rfl, rfl⟩ := h
    exact ⟨fun _ => rfl, fun hF => by simp at hF⟩

/-- C10 witness: with an empty budget, one word of allocation and a zero
maximum delay, the fast path fails and the single slow-path iteration breaks
out forcefully at 1 ms, recording exactly the one entry `1`. -/
theorem pace_for_alloc_histogram_frame_witness :
    ((claim_for_alloc 1 false ⟨0, 1⟩).1 = true → [1] = ([] : List Nat)) ∧
    ((claim_for_alloc 1 false ⟨0, 1⟩).1 = false →
      ∃ n f stf, pace_loop 1 0 (fun k => k + 1) (fun _ s => s) 1 0 ⟨0, 1⟩ =
          some (n, (fun k : Nat => k + 1) n, f, stf) ∧ [1] = [(fun k : Nat => k + 1) n]) :=
  pace_for_alloc_histogram_frame 1 0 (fun k => k + 1) (fun _ s => s) 1 ⟨0, 1⟩ [1] ⟨0, 1⟩
    (by norm_num [pace_for_alloc, pace_loop, claim_for_alloc, alloc_tax, qtrunc])
